import Mathlib

/-
  Verification development for the Atticus voice-agent orchestrator
  (source files: src/aven.ts, src/atticus.ts, src/languages.ts, src/types.ts).

  The TypeScript source is shallowly embedded: pure functions become Lean
  functions, the stateful orchestrator becomes an explicit state type with a
  step function over an operation alphabet, JavaScript exceptions become
  Except results, and JavaScript null/undefined become Option.  Long
  instruction-text string constants whose exact contents no theorem depends on
  are abbreviated to short markers; every piece of control flow and every
  data value that a theorem mentions is translated faithfully from the source.
-/

namespace Atticus

/-! ## Status and conversation state (types.ts) -/

/-- Connection status of the orchestrator, mirroring the string union
`AvenStatus` / `AtticusStatus` in types.ts. -/
inductive Status where
  | idle
  | connecting
  | connected
  | error
  deriving DecidableEq, Repr

/-- Conversation turn state, mirroring `ConversationState` in types.ts. -/
inductive ConvState where
  | idle
  | aiSpeaking
  | userTurn
  | userSpeaking
  deriving DecidableEq, Repr

/-! ## JavaScript value helpers

JavaScript null/undefined are modelled as `Option.none`.  The source uses
the logical-or idiom `x || y`, under which the empty string is falsy, and
template-literal interpolation, under which null prints as "null" and
undefined as "undefined". -/

/-- Semantics of the JavaScript truthiness test on a string-or-null value
(`if (x)`): false for null and for the empty string. -/
def jsTruthy (o : Option String) : Bool :=
  match o with
  | none => false
  | some s => !(s == "")

/-- Semantics of `x || y` for a string-or-absent `x` with string default `y`:
the default is taken when `x` is absent or the empty string. -/
def jsOrStr (a : Option String) (b : String) : String :=
  match a with
  | none => b
  | some s => if s = "" then b else s

/-- Semantics of `x || null` for a string-or-absent `x`: the empty string
collapses to null. -/
def jsOrNull (o : Option String) : Option String :=
  match o with
  | none => none
  | some s => if s = "" then none else some s

/-- Template-literal interpolation of a string-or-null value: null prints as
the four characters "null". -/
def jsTmplNull (o : Option String) : String := o.getD "null"

/-- Template-literal interpolation of a string-or-undefined value: undefined
prints as the nine characters "undefined". -/
def jsTmplUndef (o : Option String) : String := o.getD "undefined"

/-! ## Languages (languages.ts) -/

/-- The association of language codes to full names (`LANGUAGE_NAMES`). -/
def LANGUAGE_NAMES : List (String × String) :=
  [("en", "English"), ("hi", "Hindi"), ("es", "Spanish"), ("fr", "French"),
   ("de", "German"), ("it", "Italian"), ("pt", "Portuguese"), ("ru", "Russian"),
   ("ja", "Japanese"), ("ko", "Korean"), ("zh", "Chinese"), ("ar", "Arabic"),
   ("bn", "Bengali"), ("pa", "Punjabi"), ("ta", "Tamil"), ("te", "Telugu"),
   ("mr", "Marathi"), ("gu", "Gujarati"), ("kn", "Kannada"), ("ml", "Malayalam"),
   ("th", "Thai"), ("vi", "Vietnamese"), ("id", "Indonesian"), ("ms", "Malay"),
   ("tr", "Turkish"), ("pl", "Polish"), ("nl", "Dutch"), ("sv", "Swedish"),
   ("da", "Danish"), ("no", "Norwegian"), ("fi", "Finnish"), ("cs", "Czech"),
   ("sk", "Slovak"), ("hu", "Hungarian"), ("ro", "Romanian"), ("bg", "Bulgarian"),
   ("uk", "Ukrainian"), ("el", "Greek"), ("he", "Hebrew"), ("fa", "Persian"),
   ("ur", "Urdu"), ("sw", "Swahili")]

/-- `getLanguageName`: the full name of a language code, or the code itself
when it is not in the table (`LANGUAGE_NAMES[code] || code`). -/
def getLanguageName (code : String) : String :=
  jsOrStr (LANGUAGE_NAMES.lookup code) code

/-- The fixed set of language codes supported by the transcription API
(`SUPPORTED_TRANSCRIPTION_LANGUAGES`). -/
def SUPPORTED_TRANSCRIPTION_LANGUAGES : List String :=
  ["af", "ar", "az", "be", "bg", "bs", "ca", "cs", "cy", "da", "de", "el",
   "en", "es", "et", "fa", "fi", "fr", "gl", "he", "hi", "hr", "hu", "hy",
   "id", "is", "it", "iw", "ja", "kk", "kn", "ko", "lt", "lv", "mi", "mk",
   "mr", "ms", "ne", "nl", "no", "pl", "pt", "ro", "ru", "sk", "sl", "sr",
   "sv", "sw", "ta", "th", "tl", "tr", "uk", "ur", "vi", "zh"]

/-- `isTranscriptionSupported`: membership in the fixed supported set. -/
def isTranscriptionSupported (code : String) : Bool :=
  decide (code ∈ SUPPORTED_TRANSCRIPTION_LANGUAGES)

/-- The native greeting table (`LANGUAGE_GREETINGS`), restricted to the
Latin-script entries; the remaining entries exist in the source but no
theorem depends on their text. -/
def LANGUAGE_GREETINGS : List (String × String) :=
  [("en", "Hello!"), ("vi", "Xin chao!"), ("id", "Halo!"), ("ms", "Hai!"),
   ("tr", "Merhaba!"), ("nl", "Hallo!"), ("sv", "Hej!"), ("da", "Hej!"),
   ("no", "Hei!"), ("fi", "Hei!"), ("cs", "Ahoj!"), ("sk", "Ahoj!"),
   ("hu", "Szia!"), ("ro", "Salut!"), ("sw", "Jambo!")]

/-- `getLanguageGreeting`: the native greeting, or "Hello!" when absent. -/
def getLanguageGreeting (code : String) : String :=
  jsOrStr (LANGUAGE_GREETINGS.lookup code) "Hello!"

/-! ## Transcription configuration built by connect() (aven.ts lines 497-515) -/

/-- The `inputAudioTranscription` request object built inside `connect()`. -/
structure TranscriptionConfig where
  model : String
  language : Option String
  deriving DecidableEq, Repr

/-- The transcription request `connect()` passes to the realtime session:
the language field is attached exactly when `isTranscriptionSupported`
holds for the configured code. -/
def transcriptionConfigFor (language : String) : TranscriptionConfig :=
  if isTranscriptionSupported language then
    ⟨"gpt-4o-mini-transcribe", some language⟩
  else
    ⟨"gpt-4o-mini-transcribe", none⟩

/-! ## UI actions and sandboxed execution (types.ts, aven.ts lines 913-931) -/

/-- The closed enumeration of action kinds (`UIActionType`). -/
inductive UIActionType where
  | click
  | type
  | scroll
  | focus
  | hover
  | select
  | navigate
  | read
  | other
  deriving DecidableEq, Repr

/-- A UI action record (`UIAction`); the creation timestamp is outside the
model. -/
structure UIAction where
  id : String
  outputText : String
  outputCode : Option String
  actionDescription : Option String
  targetElement : Option String
  actionType : Option UIActionType
  deriving DecidableEq, Repr

/-- The result object of `executeAction`: success flag, optional produced
value, optional error message. -/
structure ExecOutcome (α : Type) where
  success : Bool
  result : Option α
  error : Option String
  deriving DecidableEq, Repr

/-- `executeAction`: given an oracle `exec` for what evaluating the supplied
code does (a normal value or a thrown message), return trivial success when
the code field is null or empty (the JavaScript falsiness test), otherwise
run the code and convert a thrown exception into a failure record.  The
return type is a plain record, so no failure can propagate to the caller. -/
def executeAction {α : Type} (exec : String → Except String α)
    (action : UIAction) : ExecOutcome α :=
  match action.outputCode with
  | none => ⟨true, none, none⟩
  | some code =>
    if code = "" then ⟨true, none, none⟩
    else
      match exec code with
      | .ok v => ⟨true, some v, none⟩
      | .error msg => ⟨false, none, some msg⟩

/-! ## Theorems for claims C5 and C9 -/

/-- C5: for every `UIAction`, if the executable-instructions field
(`outputCode`) is null or empty then `executeAction` returns success with a
null result, without executing anything (the outcome is independent of the
execution oracle); and if executing the instructions raises, `executeAction`
returns a failure record carrying the message — the exception is never
propagated (the function totally returns an `ExecOutcome`). -/
theorem c5_executeAction_contract {α : Type}
    (exec exec2 : String → Except String α) (action : UIAction) :
    ((action.outputCode = none ∨ action.outputCode = some "") →
      executeAction exec action = ⟨true, none, none⟩ ∧
      executeAction exec action = executeAction exec2 action) ∧
    (∀ code msg, action.outputCode = some code → code ≠ "" →
      exec code = Except.error msg →
      executeAction exec action = ⟨false, none, some msg⟩) := by
  constructor
  · rintro (h | h) <;> simp [executeAction, h]
  · intro code msg hc hne he
    simp [executeAction, hc, hne, he]

/-- C5 witness: the contract evaluated at a concrete action without code and
at a concrete action whose code throws "boom". -/
theorem c5_witness :
    executeAction (fun _ => (Except.error "boom" : Except String String))
        ⟨"action_1", "hello", none, none, none, none⟩
      = ⟨true, none, none⟩ ∧
    executeAction (fun _ => (Except.error "boom" : Except String String))
        ⟨"action_2", "hello", some "window.x()", none, none, none⟩
      = ⟨false, none, some "boom"⟩ := by
  constructor
  · exact ((c5_executeAction_contract
      (fun _ => (Except.error "boom" : Except String String))
      (fun _ => (Except.ok "v" : Except String String))
      ⟨"action_1", "hello", none, none, none, none⟩).1 (Or.inl rfl)).1
  · exact (c5_executeAction_contract
      (fun _ => (Except.error "boom" : Except String String))
      (fun _ => (Except.ok "v" : Except String String))
      ⟨"action_2", "hello", some "window.x()", none, none, none⟩).2
      "window.x()" "boom" rfl (by decide) rfl

/-- C9: for every configured language code, the transcription request names
the model "gpt-4o-mini-transcribe", and it carries the language field exactly
when the code belongs to the fixed supported-transcription-language set;
for codes outside the set the field is omitted. -/
theorem c9_transcription_language (lang : String) :
    (transcriptionConfigFor lang).model = "gpt-4o-mini-transcribe" ∧
    ((transcriptionConfigFor lang).language = some lang ↔
      lang ∈ SUPPORTED_TRANSCRIPTION_LANGUAGES) ∧
    ((transcriptionConfigFor lang).language = none ↔
      lang ∉ SUPPORTED_TRANSCRIPTION_LANGUAGES) := by
  unfold transcriptionConfigFor isTranscriptionSupported
  by_cases h : lang ∈ SUPPORTED_TRANSCRIPTION_LANGUAGES <;> simp [h]

/-! ## Transcript reconciliation (aven.ts lines 754-807)

A raw transcript snapshot is a list of `RItem` records; the reconciler
filters to message-kind items, classifies the first content entry, assigns
identity (preferring the backend id, falling back to a locally incremented
counter), and emits message events for the items beyond the previous
history length, then one historyChange event with the full list, then the
consolidated stateChange event. -/

/-- One content entry of a raw item (`item.content[k]`). -/
structure RContent where
  ctype : String
  text : Option String
  transcript : Option String
  deriving DecidableEq, Repr

/-- A raw item of the externally supplied transcript (`RealtimeItem`); an
absent backend item id is modelled as the empty string, which is exactly
what the falsiness test in the source treats as absent. -/
structure RItem where
  itype : String
  content : List RContent
  itemId : String
  role : String
  deriving DecidableEq, Repr

/-- Parsed message content (`MessageContent` in types.ts): a closed tagged
union of text and audio. -/
inductive MessageContent where
  | text (t : String)
  | audio (transcript : Option String)
  deriving DecidableEq, Repr

/-- A reconciled message (`Message` in types.ts); the creation timestamp is
outside the model, the original raw record is retained. -/
structure Message where
  id : String
  role : String
  content : MessageContent
  raw : RItem
  deriving DecidableEq, Repr

/-- Classification of one content entry by its kind string: input/output
text carries literal text defaulting to empty, input/output audio carries a
transcript or null, and any other kind is unrecognized. -/
def classifyContent (c : RContent) : Option MessageContent :=
  if c.ctype = "input_text" ∨ c.ctype = "output_text" then
    some (.text (c.text.getD ""))
  else if c.ctype = "input_audio" ∨ c.ctype = "output_audio" then
    some (.audio (jsOrNull c.transcript))
  else none

/-- The per-item body of the reconciliation loop: message-kind items with a
present, recognized first content entry become a `Message`; the local id
counter advances only when the backend id is absent. -/
def toMessage (item : RItem) (counter : Nat) : Option (Message × Nat) :=
  if item.itype = "message" then
    match item.content.head? with
    | none => none
    | some c =>
      match classifyContent c with
      | none => none
      | some mc =>
        if item.itemId = "" then
          some (⟨"msg_" ++ toString (counter + 1), item.role, mc, item⟩,
            counter + 1)
        else
          some (⟨item.itemId, item.role, mc, item⟩, counter)
  else none

/-- The rebuilt message list for one raw snapshot, threading the local id
counter through the items in order. -/
def buildHistory : List RItem → Nat → List Message × Nat
  | [], c => ([], c)
  | item :: rest, c =>
    match toMessage item c with
    | none => buildHistory rest c
    | some (m, c2) =>
      let r := buildHistory rest c2
      (m :: r.1, r.2)

/-- A raw item is retained by the reconciler when it is message-kind and its
first content entry exists and has a recognized kind. -/
def retainedB (item : RItem) : Bool :=
  decide (item.itype = "message") &&
    (match item.content.head? with
     | none => false
     | some c => (classifyContent c).isSome)

/-- The number of retained items of a raw snapshot. -/
def retainedCount (raw : List RItem) : Nat := (raw.filter retainedB).length

/-- The number of message-kind items of a raw snapshot, recognized or not
(the literal count named by the specification). -/
def messageKindCount (raw : List RItem) : Nat :=
  (raw.filter (fun i => decide (i.itype = "message"))).length

/-- Events published by the orchestrator (the `AvenEvents` surface restricted
to the event names and payloads the theorems speak about). -/
inductive Ev where
  | statusChange (s : Status)
  | conversationStateChange (c : ConvState)
  | stateChange
  | errorEv (msg : String)
  | message (m : Message)
  | historyChange (h : List Message)
  | connectedEv
  | disconnectedEv
  | agentStartEv
  | agentEndEv
  | userAudioEv
  | actionEv (a : UIAction)
  deriving DecidableEq, Repr

/-- `handleHistoryUpdate`: rebuild the history from the raw snapshot, emit
one message event for every item beyond the previous history length, then
one historyChange event with the full current list, then the consolidated
stateChange event.  The state is the pair of current history and local id
counter. -/
def handleHistoryUpdate (raw : List RItem) (st : List Message × Nat) :
    (List Message × Nat) × List Ev :=
  let built := buildHistory raw st.2
  let msgEvs :=
    if st.1.length < built.1.length then
      (built.1.drop st.1.length).map Ev.message
    else []
  (built, msgEvs ++ [Ev.historyChange built.1, Ev.stateChange])

/-- The reconciler state after feeding a sequence of raw snapshots to
`handleHistoryUpdate`, starting from the empty history. -/
def stateAfter (snaps : List (List RItem)) : List Message × Nat :=
  snaps.foldl (fun st raw => (handleHistoryUpdate raw st).1) ([], 0)

/-- Strict prefix-extension of raw snapshots: the later list is the earlier
one with a nonempty suffix appended. -/
def extendsStrict (a b : List RItem) : Prop := ∃ t, t ≠ [] ∧ b = a ++ t

/-- The observable part of a reconciled message: its role and content. -/
def msgView (m : Message) : String × MessageContent := (m.role, m.content)

/-- The observable part a retained raw item contributes: its role and the
classification of its first content entry. -/
def itemView (item : RItem) : String × MessageContent :=
  (item.role,
   match item.content.head? with
   | some c => (classifyContent c).getD (MessageContent.text "")
   | none => MessageContent.text "")

/-! ### Reconciler lemmas -/

theorem toMessage_isSome (item : RItem) (c : Nat) :
    (toMessage item c).isSome = retainedB item := by
  unfold toMessage retainedB
  by_cases h : item.itype = "message"
  · cases hh : item.content.head? with
    | none => simp [h, hh]
    | some ct =>
      cases hc : classifyContent ct with
      | none => simp [h, hh, hc]
      | some mc =>
        by_cases hid : item.itemId = "" <;> simp [h, hh, hc, hid]
  · simp [h]

theorem buildHistory_length (raw : List RItem) (c : Nat) :
    (buildHistory raw c).1.length = retainedCount raw := by
  induction raw generalizing c with
  | nil => simp [buildHistory, retainedCount]
  | cons item rest ih =>
    unfold buildHistory retainedCount
    cases htm : toMessage item c with
    | none =>
      have hr : retainedB item = false := by
        have := toMessage_isSome item c
        rw [htm] at this
        simpa using this.symm
      simp only [List.filter_cons, hr]
      exact ih c
    | some pr =>
      have hr : retainedB item = true := by
        have := toMessage_isSome item c
        rw [htm] at this
        simpa using this.symm
      simp only [List.filter_cons, hr, List.length_cons, List.length_cons]
      unfold retainedCount at ih
      simp [ih pr.2]

theorem toMessage_view (item : RItem) (c : Nat) (m : Message) (c2 : Nat)
    (h : toMessage item c = some (m, c2)) : msgView m = itemView item := by
  unfold toMessage at h
  by_cases hty : item.itype = "message"
  · rw [if_pos hty] at h
    cases hh : item.content.head? with
    | none => simp [hh] at h
    | some ct =>
      cases hc : classifyContent ct with
      | none => simp [hh, hc] at h
      | some mc =>
        by_cases hid : item.itemId = ""
        · simp [hh, hc, hid] at h
          obtain ⟨hm, -⟩ := h
          subst hm
          simp [msgView, itemView, hh, hc]
        · simp [hh, hc, hid] at h
          obtain ⟨hm, -⟩ := h
          subst hm
          simp [msgView, itemView, hh, hc]
  · rw [if_neg hty] at h; exact absurd h (by simp)

theorem buildHistory_view (raw : List RItem) (c : Nat) :
    (buildHistory raw c).1.map msgView = (raw.filter retainedB).map itemView := by
  induction raw generalizing c with
  | nil => simp [buildHistory]
  | cons item rest ih =>
    unfold buildHistory
    cases htm : toMessage item c with
    | none =>
      have hr : retainedB item = false := by
        have := toMessage_isSome item c
        rw [htm] at this
        simpa using this.symm
      simp only [List.filter_cons, hr]
      exact ih c
    | some pr =>
      have hr : retainedB item = true := by
        have := toMessage_isSome item c
        rw [htm] at this
        simpa using this.symm
      have hv := toMessage_view item c pr.1 pr.2 (by rw [htm])
      simp only [List.filter_cons, hr, List.map_cons, hv]
      simp [ih pr.2]

theorem stateAfter_append_one (snaps : List (List RItem)) (raw : List RItem) :
    stateAfter (snaps ++ [raw]) =
      (handleHistoryUpdate raw (stateAfter snaps)).1 := by
  unfold stateAfter
  rw [List.foldl_append]
  rfl

theorem stateAfter_fst (snaps : List (List RItem)) (raw : List RItem) :
    (stateAfter (snaps ++ [raw])).1 = (buildHistory raw (stateAfter snaps).2).1 := by
  rw [stateAfter_append_one]
  rfl

theorem buildHistory_append (a b : List RItem) (c : Nat) :
    buildHistory (a ++ b) c =
      ((buildHistory a c).1 ++ (buildHistory b ((buildHistory a c).2)).1,
       (buildHistory b ((buildHistory a c).2)).2) := by
  induction a generalizing c with
  | nil => simp [buildHistory]
  | cons item rest ih =>
    cases htm : toMessage item c with
    | none => simp [buildHistory, htm, ih c]
    | some pr =>
      obtain ⟨m, c2⟩ := pr
      simp [buildHistory, htm, ih c2]

/-! ### Claim C1 -/

/-- C1 counterexample: a single-snapshot sequence whose one message-kind
item has an unrecognized first content kind.  The item is skipped, so the
reconciled history length is 0 while the message-kind item count of the raw
list is 1: the claimed equality of the two fails. -/
theorem c1_counterexample :
    List.Chain' extendsStrict [[RItem.mk "message" [⟨"input_image", none, none⟩] "item_u" "user"]] ∧
    ¬ ((stateAfter [[RItem.mk "message" [⟨"input_image", none, none⟩] "item_u" "user"]]).1.length
        = messageKindCount [RItem.mk "message" [⟨"input_image", none, none⟩] "item_u" "user"]) := by
  constructor
  · simp
  · decide

/-- C1 (amended): for every sequence of raw snapshots in which each snapshot
is a strict prefix-extension of the previous one, after processing each
snapshot: the reconciled history length equals the count of message-kind
items whose first content entry exists and has a recognized kind (items with
an unrecognized first content kind are skipped and contribute nothing);
exactly one message event is published per newly appended retained item, in
list order, followed by one historyChange event carrying the full current
list (and the consolidated stateChange event); and the newly published
messages are precisely the retained items of the appended suffix, in order.
The step is stated for an arbitrary processed prefix `prev` followed by the
snapshot `raw`, which covers every step of every such sequence. -/
theorem c1_reconcile_extension (prev : List (List RItem)) (raw : List RItem)
    (hch : List.Chain' extendsStrict (prev ++ [raw])) :
    (handleHistoryUpdate raw (stateAfter prev)).1.1.length = retainedCount raw
    ∧ (handleHistoryUpdate raw (stateAfter prev)).2 =
        ((handleHistoryUpdate raw (stateAfter prev)).1.1.drop
            (stateAfter prev).1.length).map Ev.message
          ++ [Ev.historyChange (handleHistoryUpdate raw (stateAfter prev)).1.1,
              Ev.stateChange]
    ∧ ((handleHistoryUpdate raw (stateAfter prev)).1.1.drop
          (stateAfter prev).1.length).map msgView =
        ((raw.filter retainedB).map itemView).drop (stateAfter prev).1.length
    ∧ (∀ pp prevLast, prev = pp ++ [prevLast] →
        ∃ ext, ext ≠ [] ∧ raw = prevLast ++ ext ∧
          ((handleHistoryUpdate raw (stateAfter prev)).1.1.drop
              (stateAfter prev).1.length).map msgView =
            (ext.filter retainedB).map itemView) := by
  have hfst : (handleHistoryUpdate raw (stateAfter prev)).1.1 =
      (buildHistory raw (stateAfter prev).2).1 := rfl
  have hlen : (handleHistoryUpdate raw (stateAfter prev)).1.1.length
      = retainedCount raw := by
    rw [hfst, buildHistory_length]
  refine ⟨hlen, ?_, ?_, ?_⟩
  · show (let built := buildHistory raw (stateAfter prev).2
          let msgEvs :=
            if (stateAfter prev).1.length < built.1.length then
              (built.1.drop (stateAfter prev).1.length).map Ev.message
            else []
          msgEvs ++ [Ev.historyChange built.1, Ev.stateChange]) = _
    by_cases hlt : (stateAfter prev).1.length <
        (buildHistory raw (stateAfter prev).2).1.length
    · simp only [hlt, if_true]
      rfl
    · simp only [hlt, if_false]
      rw [hfst]
      rw [List.drop_eq_nil_of_le (by omega)]
      rfl
  · rw [hfst, List.map_drop, buildHistory_view]
  · rintro pp prevLast rfl
    have hrel : extendsStrict prevLast raw := by
      rw [List.chain'_append] at hch
      refine hch.2.2 prevLast ?_ raw ?_ <;> simp
    obtain ⟨ext, hne, hraw⟩ := hrel
    refine ⟨ext, hne, hraw, ?_⟩
    have hbefore : (stateAfter (pp ++ [prevLast])).1.length
        = retainedCount prevLast := by
      rw [stateAfter_fst, buildHistory_length]
    rw [hfst, List.map_drop, buildHistory_view, hraw, List.filter_append,
      List.map_append, hbefore]
    have : retainedCount prevLast = ((prevLast.filter retainedB).map itemView).length := by
      simp [retainedCount]
    rw [this, List.drop_left]

/-- C1 witness: the amended statement applied to the concrete two-snapshot
chain where the second snapshot appends one audio item. -/
theorem c1_witness :
    List.Chain' extendsStrict
      [[RItem.mk "message" [⟨"input_text", some "hi", none⟩] "item_a" "user"],
       [RItem.mk "message" [⟨"input_text", some "hi", none⟩] "item_a" "user",
        RItem.mk "message" [⟨"output_audio", none, some "hello there"⟩] "" "assistant"]] ∧
    (handleHistoryUpdate
        [RItem.mk "message" [⟨"input_text", some "hi", none⟩] "item_a" "user",
         RItem.mk "message" [⟨"output_audio", none, some "hello there"⟩] "" "assistant"]
        (stateAfter
          [[RItem.mk "message" [⟨"input_text", some "hi", none⟩] "item_a" "user"]])).1.1.length
      = retainedCount
          [RItem.mk "message" [⟨"input_text", some "hi", none⟩] "item_a" "user",
           RItem.mk "message" [⟨"output_audio", none, some "hello there"⟩] "" "assistant"] := by
  have hch : List.Chain' extendsStrict
      [[RItem.mk "message" [⟨"input_text", some "hi", none⟩] "item_a" "user"],
       [RItem.mk "message" [⟨"input_text", some "hi", none⟩] "item_a" "user",
        RItem.mk "message" [⟨"output_audio", none, some "hello there"⟩] "" "assistant"]] := by
    refine List.chain'_cons.mpr ⟨⟨[RItem.mk "message" [⟨"output_audio", none, some "hello there"⟩] "" "assistant"], by simp, rfl⟩, ?_⟩
    simp
  exact ⟨hch,
    (c1_reconcile_extension
      [[RItem.mk "message" [⟨"input_text", some "hi", none⟩] "item_a" "user"]]
      [RItem.mk "message" [⟨"input_text", some "hi", none⟩] "item_a" "user",
       RItem.mk "message" [⟨"output_audio", none, some "hello there"⟩] "" "assistant"]
      hch).1⟩

/-! ## The event bus (aven.ts lines 353-399 and 833-847)

Listeners are held in an insertion-ordered set per event name; `emit`
iterates them in order, wrapping each invocation in a try/catch that logs
the thrown error and continues.  Callbacks are modelled by identity
(a natural number) together with an oracle giving the effect of invoking
each one. -/

/-- `on`: add a callback to the listener set of an event; an insertion-ordered
set never holds duplicates and re-adding an existing callback neither
duplicates nor moves it. -/
def subscribeCb (listeners : List Nat) (c : Nat) : List Nat :=
  if c ∈ listeners then listeners else listeners ++ [c]

theorem subscribeCb_nodup (listeners : List Nat) (c : Nat)
    (h : listeners.Nodup) : (subscribeCb listeners c).Nodup := by
  unfold subscribeCb
  by_cases hc : c ∈ listeners
  · rw [if_pos hc]
    exact h
  · rw [if_neg hc, List.nodup_append]
    refine ⟨h, List.nodup_singleton c, ?_⟩
    intro a ha hac
    rw [List.mem_singleton] at hac
    exact hc (hac ▸ ha)

/-- `emit`: invoke every listener in subscription order; an invocation that
throws (the oracle returns a message) has its error caught and logged, and
iteration continues.  The result is the ordered list of invoked callbacks
together with the ordered list of logged errors; the function is total, so
no listener failure reaches the publisher. -/
def emitRun (eff : Nat → Option String) : List Nat → List Nat × List String
  | [] => ([], [])
  | c :: rest =>
    match eff c with
    | none => (c :: (emitRun eff rest).1, (emitRun eff rest).2)
    | some e => (c :: (emitRun eff rest).1, e :: (emitRun eff rest).2)

/-- C6: for every listener list and every throwing behaviour of the
callbacks, `emit` invokes exactly the subscribed callbacks in subscription
order — in particular a callback that throws never prevents any
later-registered callback from being invoked, and the publisher always
receives a normal return — and when the listener set is duplicate-free
(as a set always is), each callback is invoked at most once per publish. -/
theorem c6_emit_isolation (eff : Nat → Option String) (cbs : List Nat) :
    (emitRun eff cbs).1 = cbs ∧
    (cbs.Nodup → ∀ c, ((emitRun eff cbs).1.count c) ≤ 1) := by
  have hinv : (emitRun eff cbs).1 = cbs := by
    induction cbs with
    | nil => rfl
    | cons c rest ih =>
      cases he : eff c <;> simp [emitRun, he, ih]
  refine ⟨hinv, fun hnd c => ?_⟩
  rw [hinv]
  exact List.nodup_iff_count_le_one.mp hnd c

/-- C6 witness: three subscribed callbacks where the first one throws; all
three are still invoked, in order, and the count of each is at most one. -/
theorem c6_witness :
    (emitRun (fun n => if n = 0 then some "boom" else none) [0, 1, 2]).1 = [0, 1, 2] ∧
    ((emitRun (fun n => if n = 0 then some "boom" else none) [0, 1, 2]).1.count 2) ≤ 1 := by
  refine ⟨(c6_emit_isolation (fun n => if n = 0 then some "boom" else none) [0, 1, 2]).1,
    (c6_emit_isolation (fun n => if n = 0 then some "boom" else none) [0, 1, 2]).2 (by decide) 2⟩

/-! ## once semantics (aven.ts lines 369-379)

`once` registers a wrapper that, when invoked, first unsubscribes itself and
only then invokes the underlying callback.  The model considers a registry
that holds only such wrappers (identified by naturals) over one event, and an
underlying callback that may reentrantly publish the same event again; the
reentrancy budget `d` bounds how many nested republishes an invocation may
trigger, and the theorems hold for every budget.  Iteration follows the
ordered-set semantics of the source: a publish walks a snapshot of the
registry in order and invokes only wrappers still registered when reached. -/

/-- State of the once-wrapper registry: the registered wrappers in
subscription order, and the delivery trace of underlying invocations. -/
structure OnceState where
  reg : List Nat
  delivered : List Nat
  deriving DecidableEq, Repr

/-- One publish pass over the iteration snapshot `iter`: a wrapper still
registered is removed first (the self-unsubscribe inside the wrapper), then
its underlying callback runs — modelled by `inner`, which may itself be a
nested reentrant publish. -/
def onceIter (inner : OnceState → OnceState) : List Nat → OnceState → OnceState
  | [], st => st
  | i :: rest, st =>
    if i ∈ st.reg then
      onceIter inner rest (inner ⟨st.reg.erase i, st.delivered ++ [i]⟩)
    else
      onceIter inner rest st

/-- A full publish with reentrancy budget `d`: the snapshot is the current
registry; with budget `d + 1` every underlying invocation reentrantly
publishes again with budget `d`, with budget `0` it returns normally. -/
def oncePublish : Nat → OnceState → OnceState
  | 0, st => onceIter id st.reg st
  | d + 1, st => onceIter (oncePublish d) st.reg st

theorem onceIter_spec (inner : OnceState → OnceState)
    (hinner : ∀ s : OnceState, s.reg.Nodup →
      (inner s).reg.Nodup ∧ (inner s).reg ⊆ s.reg ∧
      ((inner s).delivered ++ (inner s).reg).Perm (s.delivered ++ s.reg)) :
    ∀ (iter : List Nat) (st : OnceState), st.reg.Nodup → st.reg ⊆ iter →
      (onceIter inner iter st).reg = [] ∧
      (onceIter inner iter st).delivered.Perm (st.delivered ++ st.reg) := by
  intro iter
  induction iter with
  | nil =>
    intro st hnd hsub
    have hreg : st.reg = [] := List.eq_nil_iff_forall_not_mem.mpr fun x hx =>
      (List.not_mem_nil x) (hsub hx)
    simp [onceIter, hreg]
  | cons i rest ih =>
    intro st hnd hsub
    by_cases hi : i ∈ st.reg
    · have hnd1 : (st.reg.erase i).Nodup := hnd.erase i
      obtain ⟨hnd2, hsub2, hperm2⟩ :=
        hinner ⟨st.reg.erase i, st.delivered ++ [i]⟩ hnd1
      have hsub2' : (inner ⟨st.reg.erase i, st.delivered ++ [i]⟩).reg ⊆ rest := by
        intro x hx
        have hx' : x ∈ st.reg.erase i := hsub2 hx
        have hxne : x ≠ i := ((List.Nodup.mem_erase_iff hnd).mp hx').1
        have hxm : x ∈ st.reg := ((List.Nodup.mem_erase_iff hnd).mp hx').2
        have hxc : x ∈ i :: rest := hsub hxm
        rcases List.mem_cons.mp hxc with h | h
        · exact absurd h hxne
        · exact h
      obtain ⟨hreg3, hperm3⟩ :=
        ih (inner ⟨st.reg.erase i, st.delivered ++ [i]⟩) hnd2 hsub2'
      simp only [onceIter, if_pos hi]
      have hperm4 : (i :: st.reg.erase i).Perm st.reg :=
        (List.perm_cons_erase hi).symm
      have hperm5 : ((st.delivered ++ [i]) ++ st.reg.erase i).Perm
          (st.delivered ++ st.reg) := by
        rw [List.append_assoc]
        exact List.Perm.append_left st.delivered hperm4
      exact ⟨hreg3, hperm3.trans (hperm2.trans hperm5)⟩
    · simp only [onceIter, if_neg hi]
      have hsub' : st.reg ⊆ rest := by
        intro x hx
        have hxc : x ∈ i :: rest := hsub hx
        rcases List.mem_cons.mp hxc with h | h
        · subst h; exact absurd hx hi
        · exact h
      exact ih st hnd hsub'

theorem oncePublish_spec (d : Nat) :
    ∀ s : OnceState, s.reg.Nodup →
      (oncePublish d s).reg = [] ∧
      (oncePublish d s).delivered.Perm (s.delivered ++ s.reg) := by
  induction d with
  | zero =>
    intro s hnd
    exact onceIter_spec id
      (fun s2 hnd2 => ⟨hnd2, fun x hx => hx, List.Perm.refl _⟩)
      s.reg s hnd (fun x hx => hx)
  | succ d ih =>
    intro s hnd
    refine onceIter_spec (oncePublish d) ?_ s.reg s hnd (fun x hx => hx)
    intro s2 hnd2
    obtain ⟨hreg, hperm⟩ := ih s2 hnd2
    refine ⟨by rw [hreg]; exact List.nodup_nil, by rw [hreg]; exact List.nil_subset _, ?_⟩
    rw [hreg, List.append_nil]
    exact hperm

theorem oncePublish_empty (d : Nat) (s : OnceState) (h : s.reg = []) :
    oncePublish d s = s := by
  cases d <;> simp [oncePublish, h, onceIter]

/-- C7: for every number of once-registrations (a duplicate-free wrapper
registry of any size) and every reentrancy budget of the underlying
callback, one publish delivers every registration exactly once — the
delivery trace is a permutation of the registry and each registered wrapper
is delivered exactly one time — the registry is empty afterwards, and any
further publish (with any reentrancy budget) delivers nothing more.  The
exactly-once guarantee rests on the wrapper removing itself from the
registry before invoking the underlying callback, which is how `onceIter`
models the source. -/
theorem c7_once_exactly_once (d : Nat) (reg : List Nat) (h : reg.Nodup) :
    (oncePublish d ⟨reg, []⟩).delivered.Perm reg
    ∧ (oncePublish d ⟨reg, []⟩).reg = []
    ∧ (∀ i, i ∈ reg → (oncePublish d ⟨reg, []⟩).delivered.count i = 1)
    ∧ (∀ d2, oncePublish d2 (oncePublish d ⟨reg, []⟩) = oncePublish d ⟨reg, []⟩) := by
  obtain ⟨hreg, hperm⟩ := oncePublish_spec d ⟨reg, []⟩ h
  have hperm' : (oncePublish d ⟨reg, []⟩).delivered.Perm reg := by
    simpa using hperm
  refine ⟨hperm', hreg, ?_, ?_⟩
  · intro i hi
    rw [hperm'.count_eq]
    exact List.count_eq_one_of_mem h hi
  · intro d2
    exact oncePublish_empty d2 _ hreg

/-- C7 witness: three once-registrations with reentrancy budget two; each of
the three is delivered exactly once. -/
theorem c7_witness :
    (oncePublish 2 ⟨[0, 1, 2], []⟩).delivered.Perm [0, 1, 2]
    ∧ (oncePublish 2 ⟨[0, 1, 2], []⟩).delivered.count 1 = 1 :=
  ⟨(c7_once_exactly_once 2 [0, 1, 2] (by decide)).1,
   (c7_once_exactly_once 2 [0, 1, 2] (by decide)).2.2.1 1 (by decide)⟩

/-! ## The orchestrator state machine (aven.ts)

The mutable instance fields of the orchestrator that the claims speak about
(status, conversation state, stored error, history, message id counter, and
whether a realtime-session handle is held).  Public operations and
session-event callbacks become an operation alphabet with a step function;
connect is modelled atomically with its outcome (success, or the failure
message thrown by the session) as a parameter.  A session-event callback can
run exactly while a session handle is held, which is the interval from the
handle assignment inside connect until disconnect discards it — note that a
failed connect keeps the handle and its registered listeners. -/

/-- The orchestrator state. -/
structure MState where
  status : Status
  conversationState : ConvState
  error : Option String
  history : List Message
  messageIdCounter : Nat
  sessionActive : Bool
  deriving DecidableEq, Repr

/-- The initial state of a fresh instance. -/
def initState : MState := ⟨.idle, .idle, none, [], 0, false⟩

/-- `setConversationState` (aven.ts lines 821-827): on change, store the new
state and publish the specific change event plus the consolidated
stateChange event. -/
def setConversationState (c : ConvState) (st : MState) : MState × List Ev :=
  if st.conversationState = c then (st, [])
  else ({ st with conversationState := c },
    [Ev.conversationStateChange c, Ev.stateChange])

/-- `setStatus` (aven.ts lines 809-819): on change, store the new status,
publish statusChange and stateChange, and reset the conversation state to
idle whenever the new status is idle or error. -/
def setStatus (s : Status) (st : MState) : MState × List Ev :=
  if st.status = s then (st, [])
  else
    let st1 := { st with status := s }
    if s = .idle ∨ s = .error then
      let r := setConversationState .idle st1
      (r.1, [Ev.statusChange s, Ev.stateChange] ++ r.2)
    else (st1, [Ev.statusChange s, Ev.stateChange])

/-- Session-event callbacks registered by `setupSessionListeners`
(aven.ts lines 715-752). -/
inductive SessEv where
  | histUpdate (raw : List RItem)
  | sessionError (msg : String)
  | agentStart
  | agentEnd
  | audioDetected
  deriving DecidableEq, Repr

/-- `connect()` (aven.ts lines 485-568), atomically: an early return when a
session handle already exists; otherwise status goes to connecting, the
stored error is cleared, the handle is created and listeners registered,
and then either the transport connect succeeds (status connected, connected
event, UI initialization and greeting, which touch no modelled field) or it
throws (error stored, status error, error event, failure rethrown — and the
handle is kept). -/
def connectStep (outcome : Option String) (st : MState) : MState × List Ev :=
  if st.sessionActive then (st, [])
  else
    let r1 := setStatus .connecting st
    let st2 := { r1.1 with error := none, sessionActive := true }
    match outcome with
    | none =>
      let r3 := setStatus .connected st2
      (r3.1, r1.2 ++ r3.2 ++ [Ev.connectedEv])
    | some msg =>
      let st3 := { st2 with error := some msg }
      let r4 := setStatus .error st3
      (r4.1, r1.2 ++ r4.2 ++ [Ev.errorEv msg])

/-- `disconnect()` (aven.ts lines 573-585): close and discard the session
handle if held, clear the history, set status idle and conversation state
idle, publish disconnected and an empty historyChange. -/
def disconnectStep (st : MState) : MState × List Ev :=
  let st1 := { st with sessionActive := false, history := [] }
  let r2 := setStatus .idle st1
  let r3 := setConversationState .idle r2.1
  (r3.1, r2.2 ++ r3.2 ++ [Ev.disconnectedEv, Ev.historyChange []])

/-- The operation alphabet: the public lifecycle operations and the
session-event callbacks. -/
inductive Op where
  | connectOp (outcome : Option String)
  | disconnectOp
  | interruptOp
  | sendMessageOp (text : String)
  | toggleOp (outcome : Option String)
  | destroyOp
  | sessOp (e : SessEv)
  deriving DecidableEq, Repr

/-- One transition of the orchestrator.  `interrupt` and `sendMessage` only
forward to the session and change no modelled field.  `toggle` disconnects
when connected with a live handle, reconnects from idle or error, and does
nothing otherwise.  `destroy` stops the auto-update timer (outside the
model), disconnects, and clears the listener registry (outside the state).
A session-event callback runs only while a session handle is held:
history updates re-reconcile, a session error is stored and published
without a status transition, and the turn signals drive the conversation
state. -/
def stepOp (op : Op) (st : MState) : MState × List Ev :=
  match op with
  | .connectOp outcome => connectStep outcome st
  | .disconnectOp => disconnectStep st
  | .interruptOp => (st, [])
  | .sendMessageOp _ => (st, [])
  | .toggleOp outcome =>
    if st.status = .connected ∧ st.sessionActive then disconnectStep st
    else if st.status = .idle ∨ st.status = .error then connectStep outcome st
    else (st, [])
  | .destroyOp => disconnectStep st
  | .sessOp e =>
    if st.sessionActive = false then (st, [])
    else
      match e with
      | .histUpdate raw =>
        let r := handleHistoryUpdate raw (st.history, st.messageIdCounter)
        ({ st with history := r.1.1, messageIdCounter := r.1.2 }, r.2)
      | .sessionError msg => ({ st with error := some msg }, [Ev.errorEv msg])
      | .agentStart =>
        let r := setConversationState .aiSpeaking st
        (r.1, r.2 ++ [Ev.agentStartEv])
      | .agentEnd =>
        let r := setConversationState .userTurn st
        (r.1, r.2 ++ [Ev.agentEndEv])
      | .audioDetected =>
        let r := setConversationState .userSpeaking st
        (r.1, r.2 ++ [Ev.userAudioEv])

/-- The state reached by a sequence of operations from the initial state. -/
def runTrace (ops : List Op) : MState :=
  ops.foldl (fun s op => (stepOp op s).1) initState

/-- The invariant of claim C2: whenever the status is idle or error, the
conversation state is idle. -/
def invC2 (s : MState) : Prop :=
  (s.status = .idle ∨ s.status = .error) → s.conversationState = .idle

/-- A trace is guarded when every session-event callback in it fires while
the status is connected (the externally delivered turn signals and
transcript updates of a live conversation). -/
def goodFrom (st : MState) : List Op → Bool
  | [] => true
  | op :: rest =>
    (match op with
     | .sessOp _ => decide (st.status = .connected)
     | _ => true) && goodFrom (stepOp op st).1 rest

/-! ### State-machine lemmas -/

theorem setConversationState_fst_conv (c : ConvState) (st : MState) :
    ((setConversationState c st).1).conversationState = c := by
  unfold setConversationState
  by_cases h : st.conversationState = c
  · rw [if_pos h]; exact h
  · rw [if_neg h]

theorem setConversationState_fst_status (c : ConvState) (st : MState) :
    ((setConversationState c st).1).status = st.status := by
  unfold setConversationState
  by_cases h : st.conversationState = c <;> simp [h]

theorem setStatus_fst_status (s : Status) (st : MState) :
    ((setStatus s st).1).status = s := by
  unfold setStatus
  by_cases h : st.status = s
  · rw [if_pos h]; exact h
  · rw [if_neg h]
    by_cases h2 : s = .idle ∨ s = .error
    · rw [if_pos h2, setConversationState_fst_status]
    · rw [if_neg h2]

theorem setStatus_invC2 (s : Status) (st : MState) (h : invC2 st) :
    invC2 (setStatus s st).1 := by
  intro hres
  rw [setStatus_fst_status] at hres
  unfold setStatus
  by_cases hchg : st.status = s
  · rw [if_pos hchg]
    exact h (by rw [hchg]; exact hres)
  · rw [if_neg hchg, if_pos hres, setConversationState_fst_conv]

theorem invC2_of_status_connected (s : MState)
    (h : s.status = .connected) : invC2 s := by
  intro hres
  rcases hres with h1 | h1 <;> (rw [h] at h1; exact Status.noConfusion h1)

theorem connectStep_invC2 (o : Option String) (st : MState) (h : invC2 st) :
    invC2 (connectStep o st).1 := by
  unfold connectStep
  by_cases hs : st.sessionActive
  · rw [if_pos hs]; exact h
  · rw [if_neg hs]
    cases o with
    | none =>
      apply invC2_of_status_connected
      rw [setStatus_fst_status]
    | some msg =>
      apply setStatus_invC2
      intro hres
      have hcon : ((setStatus Status.connecting st).1).status = Status.idle ∨
          ((setStatus Status.connecting st).1).status = Status.error := hres
      rw [setStatus_fst_status] at hcon
      rcases hcon with h1 | h1 <;> exact Status.noConfusion h1

theorem disconnectStep_fst (st : MState) :
    (disconnectStep st).1 =
      ⟨.idle, .idle, st.error, [], st.messageIdCounter, false⟩ := by
  obtain ⟨a, b, c, d, e, f⟩ := st
  unfold disconnectStep setStatus setConversationState
  by_cases h1 : a = Status.idle <;> by_cases h2 : b = ConvState.idle <;>
    simp [h1, h2]

theorem stepOp_invC2 (op : Op) (s : MState) (h : invC2 s)
    (hg : ∀ e, op = Op.sessOp e → s.status = .connected) :
    invC2 (stepOp op s).1 := by
  cases op with
  | connectOp o => exact connectStep_invC2 o s h
  | disconnectOp =>
    intro _
    show ((disconnectStep s).1).conversationState = .idle
    rw [disconnectStep_fst]
  | interruptOp => exact h
  | sendMessageOp t => exact h
  | toggleOp o =>
    show invC2 (stepOp (Op.toggleOp o) s).1
    simp only [stepOp]
    by_cases h1 : s.status = .connected ∧ s.sessionActive
    · rw [if_pos h1]
      intro _
      rw [disconnectStep_fst]
    · rw [if_neg h1]
      by_cases h2 : s.status = .idle ∨ s.status = .error
      · rw [if_pos h2]; exact connectStep_invC2 o s h
      · rw [if_neg h2]; exact h
  | destroyOp =>
    intro _
    show ((disconnectStep s).1).conversationState = .idle
    rw [disconnectStep_fst]
  | sessOp e =>
    have hst : s.status = .connected := hg e rfl
    show invC2 (stepOp (Op.sessOp e) s).1
    simp only [stepOp]
    by_cases hact : s.sessionActive = false
    · rw [if_pos hact]; exact h
    · rw [if_neg hact]
      cases e with
      | histUpdate raw => exact invC2_of_status_connected _ hst
      | sessionError msg => exact invC2_of_status_connected _ hst
      | agentStart =>
        exact invC2_of_status_connected _
          (by rw [setConversationState_fst_status]; exact hst)
      | agentEnd =>
        exact invC2_of_status_connected _
          (by rw [setConversationState_fst_status]; exact hst)
      | audioDetected =>
        exact invC2_of_status_connected _
          (by rw [setConversationState_fst_status]; exact hst)

theorem goodRun_invC2 (ops : List Op) :
    ∀ s : MState, invC2 s → goodFrom s ops = true →
      invC2 (ops.foldl (fun s2 op => (stepOp op s2).1) s) := by
  induction ops with
  | nil => intro s h _; exact h
  | cons op rest ih =>
    intro s h hg
    simp only [goodFrom, Bool.and_eq_true] at hg
    obtain ⟨hg1, hg2⟩ := hg
    rw [List.foldl_cons]
    refine ih _ (stepOp_invC2 op s h ?_) hg2
    intro e he
    subst he
    exact of_decide_eq_true hg1

/-! ### Claims C2, C8, C10 -/

/-- C2 counterexample: a connect whose transport step fails leaves the
status at error but keeps the session handle and its registered listeners;
a subsequent agent-start turn signal then sets the conversation state to
ai_speaking while the status is still error, violating the claimed
invariant on this reachable state. -/
theorem c2_counterexample :
    (runTrace [Op.connectOp (some "network failure"),
        Op.sessOp SessEv.agentStart]).status = Status.error
    ∧ ¬ ((runTrace [Op.connectOp (some "network failure"),
        Op.sessOp SessEv.agentStart]).conversationState = ConvState.idle) := by
  decide

/-- C2 (amended): for every sequence of public operations and session-event
callbacks from the initial state in which every session-event callback is
delivered while the status is connected, the reached state satisfies the
invariant: whenever the status is idle or error, the conversation state is
idle.  Without that delivery restriction the invariant fails, because a
failed connect retains the session handle with its listeners registered
while the status is error, and a turn-signal callback then moves the
conversation state away from idle (see the counterexample). -/
theorem c2_invariant_guarded (ops : List Op)
    (h : goodFrom initState ops = true) : invC2 (runTrace ops) :=
  goodRun_invC2 ops initState (fun _ => rfl) h

/-- C2 witness: a guarded trace that connects, receives an agent-start turn
signal while connected, and disconnects; the invariant holds at the end. -/
theorem c2_witness :
    goodFrom initState
      [Op.connectOp none, Op.sessOp SessEv.agentStart, Op.disconnectOp] = true
    ∧ invC2 (runTrace
      [Op.connectOp none, Op.sessOp SessEv.agentStart, Op.disconnectOp]) :=
  ⟨by decide, c2_invariant_guarded
    [Op.connectOp none, Op.sessOp SessEv.agentStart, Op.disconnectOp]
    (by decide)⟩

/-- C8: disconnect is idempotent — from every state, disconnecting twice in
a row reaches exactly the state of disconnecting once, and that terminal
state has status idle, conversation state idle, empty history and the
session handle discarded.  `disconnectStep` is a total function, so the
second call (like the first) cannot raise. -/
theorem c8_disconnect_idempotent (s : MState) :
    (disconnectStep (disconnectStep s).1).1 = (disconnectStep s).1
    ∧ (disconnectStep s).1.status = .idle
    ∧ (disconnectStep s).1.conversationState = .idle
    ∧ (disconnectStep s).1.history = []
    ∧ (disconnectStep s).1.sessionActive = false := by
  rw [disconnectStep_fst s, disconnectStep_fst]
  simp

/-- C10: calling connect while a session handle already exists returns
immediately: the state is unchanged in every field and no event is
published. -/
theorem c10_connect_noop (s : MState) (outcome : Option String)
    (h : s.sessionActive = true) :
    stepOp (Op.connectOp outcome) s = (s, []) := by
  simp [stepOp, connectStep, h]

/-- C10 witness: connect in a concrete connected state is a complete
no-op. -/
theorem c10_witness :
    stepOp (Op.connectOp none)
      ⟨.connected, .idle, none, [], 0, true⟩
      = (⟨.connected, .idle, none, [], 0, true⟩, []) :=
  c10_connect_noop ⟨.connected, .idle, none, [], 0, true⟩ none rfl

/-! ## Construction (aven.ts lines 136-202)

The constructor as it runs at the JavaScript runtime: fields that the caller
may omit are Option-valued; the merge with the documented defaults is a pure
transform that merely stores `clientSecret` and `agent` as given, without
validating them; afterwards `buildInstructions` reads properties of the
agent persona, which throws a TypeError when the persona is absent — the
only construction-time failure.  Long directive texts are abbreviated
constants, since no theorem depends on their contents. -/

/-- The agent persona (`AgentConfig` in types.ts). -/
structure AgentConfig where
  name : String
  instructions : String
  deriving DecidableEq, Repr

/-- Caller-supplied UI sub-configuration, fields optional as in `UIConfig`;
the live root-element handle is modelled by its presence. -/
structure UIConfigIn where
  enabled : Bool
  hasRootElement : Bool
  d2SnapMaxTokens : Option Nat
  d2SnapAssignUniqueIDs : Option Bool
  autoUpdate : Option Bool
  autoUpdateInterval : Option Nat
  deriving DecidableEq, Repr

/-- Caller-supplied configuration (`AvenConfig`), with every field the
runtime may observe as absent modelled as an Option. -/
structure AvenConfigIn where
  clientSecret : Option String
  agent : Option AgentConfig
  model : Option String
  voice : Option String
  language : Option String
  autoGreet : Option Bool
  greetingMessage : Option String
  debug : Option Bool
  doNotExecuteActions : Option Bool
  ui : Option UIConfigIn
  deriving DecidableEq, Repr

/-- The effective configuration after the merge with `DEFAULT_CONFIG` and
`DEFAULT_UI_CONFIG`; the credential and persona are stored unvalidated. -/
structure EffectiveConfig where
  clientSecret : Option String
  agent : Option AgentConfig
  model : String
  voice : String
  language : String
  autoGreet : Bool
  greetingMessage : String
  debug : Bool
  doNotExecuteActions : Bool
  uiEnabled : Bool
  uiHasRootElement : Bool
  uiAutoUpdate : Bool
  uiAutoUpdateInterval : Nat
  uiMaxTokens : Nat
  uiAssignUniqueIDs : Bool
  deriving DecidableEq, Repr

/-- The default-merging performed at the top of the constructor. -/
def mergeConfig (c : AvenConfigIn) : EffectiveConfig :=
  { clientSecret := c.clientSecret
    agent := c.agent
    model := c.model.getD "gpt-4o-realtime-preview"
    voice := c.voice.getD "alloy"
    language := c.language.getD "en"
    autoGreet := c.autoGreet.getD true
    greetingMessage := c.greetingMessage.getD "Hello!"
    debug := c.debug.getD false
    doNotExecuteActions := c.doNotExecuteActions.getD false
    uiEnabled :=
      match c.ui with
      | some u => u.enabled
      | none => false
    uiHasRootElement :=
      match c.ui with
      | some u => u.hasRootElement
      | none => false
    uiAutoUpdate :=
      match c.ui with
      | some u => u.autoUpdate.getD false
      | none => false
    uiAutoUpdateInterval :=
      match c.ui with
      | some u => u.autoUpdateInterval.getD 5000
      | none => 5000
    uiMaxTokens :=
      match c.ui with
      | some u => u.d2SnapMaxTokens.getD 4096
      | none => 4096
    uiAssignUniqueIDs :=
      match c.ui with
      | some u => u.d2SnapAssignUniqueIDs.getD true
      | none => true }

/-- Marker for the fixed UI-capabilities directive text appended by
`getUIDirective`; its contents carry no modelled meaning. -/
def uiDirectiveText : String := "[UI Interaction Capabilities directive]"

/-- `getLanguageDirective`: always produced, naming the language
(`getLanguageName(lang || "en")`). -/
def getLanguageDirective (language : String) : String :=
  "IMPORTANT: You MUST speak and respond ONLY in "
    ++ getLanguageName (jsOrStr (some language) "en")
    ++ ". All your responses should be in "
    ++ getLanguageName (jsOrStr (some language) "en") ++ "."

/-- `buildInstructions`: prepend the language directive to the persona
instructions and, when UI mode is enabled, append the UI directive.  It
reads the persona, so it can only run once the persona is present. -/
def buildInstructions (cfg : EffectiveConfig) (a : AgentConfig) : String :=
  let base := getLanguageDirective cfg.language ++ "\n\n" ++ a.instructions
  if cfg.uiEnabled then base ++ "\n\n" ++ uiDirectiveText else base

/-- A constructed orchestrator instance: the effective configuration, the
assembled instructions, the number of tools given to the realtime agent
(one action tool in the direct profile when UI mode is enabled), and the
agent name passed on. -/
structure AvenInstance where
  config : EffectiveConfig
  instructions : String
  toolCount : Nat
  agentName : String
  deriving DecidableEq, Repr

/-- The constructor at runtime: merge defaults, then build the instructions
— which dereferences the agent persona and therefore throws a TypeError
when the persona is absent — then create the realtime agent from the
persona name.  The credential is only stored; nothing reads it before
`connect()`. -/
def mkAven (c : AvenConfigIn) : Except String AvenInstance :=
  let cfg := mergeConfig c
  match cfg.agent with
  | none =>
    .error "TypeError: cannot read properties of undefined reading instructions"
  | some a =>
    .ok ⟨cfg, buildInstructions cfg a, if cfg.uiEnabled then 1 else 0, a.name⟩

/-- Whether construction produced an instance. -/
def constructionSucceeds (c : AvenConfigIn) : Bool :=
  match mkAven c with
  | .ok _ => true
  | .error _ => false

/-! ### Claim C3 -/

/-- C3 counterexample: constructing from a configuration whose connection
credential is absent but whose agent persona is present succeeds and
produces an instance, instead of failing at construction time as claimed. -/
theorem c3_counterexample :
    constructionSucceeds
      ⟨none, some ⟨"Assistant", "You are a helpful assistant."⟩,
       none, none, none, none, none, none, none, none⟩ = true := by
  decide

/-- C3 (amended): construction fails at construction time exactly when the
agent persona is absent (building the instructions dereferences it and
throws); an absent connection credential alone does not fail construction —
the instance is produced and the missing credential can only surface later,
at connect time. -/
theorem c3_construction (c : AvenConfigIn) :
    constructionSucceeds c = c.agent.isSome := by
  unfold constructionSucceeds mkAven
  cases h : c.agent with
  | none => simp [mergeConfig, h]
  | some a => simp [mergeConfig, h]

/-! ## The action tool exposed to the remote agent
(aven.ts lines 253-278, atticus.ts lines 1208-1242)

Both profiles build a `UIAction` from the tool parameters, publish the
action event unconditionally, and — when auto-execution is enabled and
executable code was supplied — call `executeAction`.  The direct profile
(aven.ts) only logs the result and returns the explanation text on every
path; the inspect-then-act profile (atticus.ts) returns the explanation
annotated with the refreshed surface on success and with the failure reason
on failure. -/

/-- The structured parameters of the `execute_ui_action` tool. -/
structure ToolParams where
  outputText : String
  outputCode : Option String
  actionDescription : Option String
  targetElement : Option String
  actionType : Option UIActionType
  deriving DecidableEq, Repr

/-- The `UIAction` record built from the tool parameters with a fresh
locally generated id. -/
def buildAction (counter : Nat) (p : ToolParams) : UIAction :=
  ⟨"action_" ++ toString (counter + 1), p.outputText, p.outputCode,
   p.actionDescription, p.targetElement, p.actionType⟩

/-- The direct-profile tool body (aven.ts): publish the action event, then,
if auto-execution is enabled and code was supplied, execute it — the result
is only logged, both branches fall through — and return the explanation
text.  The result is the returned string, the published events, and the new
action-id counter. -/
def avenToolExecute {α : Type} (doNotExecuteActions : Bool)
    (exec : String → Except String α) (counter : Nat) (p : ToolParams) :
    String × List Ev × Nat :=
  let action := buildAction counter p
  let ret :=
    if !doNotExecuteActions && jsTruthy action.outputCode then
      let result := executeAction exec action
      if result.success then p.outputText else p.outputText
    else p.outputText
  (ret, [Ev.actionEv action], counter + 1)

/-- The inspect-then-act-profile tool body (atticus.ts): re-capture, publish
the action event, then, if auto-execution is enabled and code was supplied,
execute it and return the explanation annotated with the refreshed surface
text on success or with the failure reason on failure; otherwise return the
explanation as is.  `domAfterRefresh` is the cached surface text after the
re-capture that follows a successful execution. -/
def atticusToolExecute {α : Type} (doNotExecuteActions : Bool)
    (exec : String → Except String α) (domAfterRefresh : Option String)
    (counter : Nat) (p : ToolParams) : String × List Ev × Nat :=
  let action := buildAction counter p
  let ret :=
    if !doNotExecuteActions && jsTruthy action.outputCode then
      let result := executeAction exec action
      if result.success then
        p.outputText ++ "\n\n[Action executed successfully. Current UI state:]\n"
          ++ jsTmplNull domAfterRefresh
      else
        p.outputText ++ "\n\n[Action failed: " ++ jsTmplUndef result.error ++ "]"
    else p.outputText
  (ret, [Ev.actionEv action], counter + 1)

/-! ### Claim C4 -/

/-- C4 counterexample: in the direct profile, with auto-execution enabled,
executable code supplied, and an execution oracle that makes
`executeAction` report failure, the tool returns the bare explanation text,
not the explanation annotated with the failure reason. -/
theorem c4_counterexample :
    (avenToolExecute false
        (fun _ => (Except.error "boom" : Except String String)) 0
        ⟨"I will click the button", some "window.submitForm()", none, none, none⟩).1
      = "I will click the button"
    ∧ "I will click the button"
      ≠ "I will click the button" ++ "\n\n[Action failed: boom]" := by
  constructor
  · rfl
  · decide

/-- C4 (amended): in the direct profile, the action tool returns the bare
explanation text on every path — success, failure, and auto-execution
disabled; execution failure is only logged.  The return value annotated
with the failure reason occurs only in the inspect-then-act profile, whose
tool on failure returns the explanation followed by the failure reason. -/
theorem c4_tool_return {α : Type} (doNot : Bool)
    (exec : String → Except String α) (counter : Nat)
    (dom : Option String) (p : ToolParams) :
    (avenToolExecute doNot exec counter p).1 = p.outputText
    ∧ (∀ code msg, p.outputCode = some code → code ≠ "" →
        exec code = Except.error msg →
        (atticusToolExecute false exec dom counter p).1
          = p.outputText ++ "\n\n[Action failed: " ++ msg ++ "]") := by
  constructor
  · unfold avenToolExecute
    by_cases hc : !doNot && jsTruthy (buildAction counter p).outputCode
    · simp only [hc, if_true]
      by_cases hs : (executeAction exec (buildAction counter p)).success <;>
        simp [hs]
    · simp [hc]
  · intro code msg hcode hne hexec
    unfold atticusToolExecute
    have htr : jsTruthy (buildAction counter p).outputCode = true := by
      simp [buildAction, jsTruthy, hcode, hne]
    have hea : executeAction exec (buildAction counter p) =
        ⟨false, none, some msg⟩ := by
      simp [executeAction, buildAction, hcode, hne, hexec]
    simp [htr, hea, jsTmplUndef]

/-- C4 witness: the amended statement at a failing concrete execution — the
direct profile returns the bare text while the inspect-then-act profile
returns the annotated text. -/
theorem c4_witness :
    (avenToolExecute false
        (fun _ => (Except.error "no such element" : Except String String)) 0
        ⟨"Clicking", some "window.submitForm()", none, none, none⟩).1 = "Clicking"
    ∧ (atticusToolExecute false
        (fun _ => (Except.error "no such element" : Except String String))
        (some "<div></div>") 0
        ⟨"Clicking", some "window.submitForm()", none, none, none⟩).1
      = "Clicking" ++ "\n\n[Action failed: " ++ "no such element" ++ "]" :=
  ⟨(c4_tool_return false
      (fun _ => (Except.error "no such element" : Except String String)) 0
      (some "<div></div>")
      ⟨"Clicking", some "window.submitForm()", none, none, none⟩).1,
   (c4_tool_return false
      (fun _ => (Except.error "no such element" : Except String String)) 0
      (some "<div></div>")
      ⟨"Clicking", some "window.submitForm()", none, none, none⟩).2
      "window.submitForm()" "no such element" rfl (by decide) rfl⟩

end Atticus
